import Mathlib

/-!
Shallow embedding of the subscription lifecycle reconciliation workflow of
`packages/servers/serverless/services/business/SubscriptionService.ts`
(class `SubscriptionService`): `resolveSubscription`, `removeSubscription`
and their helpers, together with the organization/user store operations they
rely on.  Marketplace HTTP behaviour (authentication, subscription fetch,
activation response) is a parameter of each run; store state is threaded
explicitly, and state updates performed before an exception persist, as they
do in the JavaScript code.
-/

namespace SubSvc

/-- `Role` enum used by the service (`Role.Admin`, `Role.Member`).
Modelled from the spec: the `Role` enum of the entities package is not in
the provided sources; §3 gives `role: one of {Admin, Member}`. -/
inductive Role where
  | Admin : Role
  | Member : Role
deriving DecidableEq, Repr

/-- `saasSubscriptionStatus` is a plain `string` in `ISubscription`; the
enum members the service compares against are modelled as string
constants. -/
def SaasSubscriptionStatus.Subscribed : String := "Subscribed"

def SaasSubscriptionStatus.Unsubscribed : String := "Unsubscribed"

def SaasSubscriptionStatus.PendingFulfillmentStart : String :=
  "PendingFulfillmentStart"

/-- The `beneficiary` / `purchaser` record shape of `ISubscription`. -/
structure Principal where
  emailId : String
  objectId : String
  tenantId : String
  pid : String
deriving DecidableEq, Repr

/-- The `term` record shape of `ISubscription` (dates kept opaque). -/
structure Term where
  termUnit : String
  startDate : String
  endDate : String
deriving DecidableEq, Repr

/-- `ISubscription` from `entities/interfaces/ISubscription.ts`. -/
structure Subscription where
  id : String
  publisherId : String
  offerId : String
  name : String
  saasSubscriptionStatus : String
  beneficiary : Principal
  purchaser : Principal
  planId : String
  term : Term
  autoRenew : Bool
  isTest : Bool
  isFreeTrial : Bool
  allowedCustomerOperations : List String
  sandboxType : String
  lastModified : String
  quantity : Nat
  sessionMode : String
deriving DecidableEq, Repr

/-- `IUser` document. Modelled from the spec: the `IUser` interface is not
in the provided sources; §3 gives identity `userId`/`tenantId`/`upn` plus
`role`, `license`, `subscriptionId`, and the service additionally reads the
store key `_id`. -/
structure User where
  uid : Nat
  userId : String
  tenantId : String
  upn : String
  role : Role
  license : String
  subscriptionId : String
deriving DecidableEq, Repr

/-- `IOrganization` document. Modelled from the spec: the `IOrganization`
interface is not in the provided sources; §3 gives `tenantId` plus the
embedded `subscriptions` list, and the service reads the store key `_id`. -/
structure Organization where
  uid : Nat
  tenantId : String
  subscriptions : List Subscription
deriving DecidableEq, Repr

/-- The two stores the reconciler writes to, plus a fresh-key counter for
documents created by upserts. -/
structure DB where
  organizations : List Organization
  users : List User
  nextId : Nat
deriving DecidableEq, Repr

/-- Errors a run can surface: a JavaScript `TypeError` from dereferencing
`undefined`, an opaque failure thrown by an external call, or the `Error`
thrown by `callActivateSubscriptionApi` on a truthy `Message`. -/
inductive Err where
  | typeError : Err
  | external (code : Nat) : Err
  | activationMessage (msg : String) : Err
deriving DecidableEq, Repr

/-- A query document for the user store, as used by the service:
`{_id}`, `{tenantId, subscriptionId}` or `{userId, tenantId, upn}`.
Modelled from the spec: §4.4, filters match on the fields they mention. -/
structure UserFilter where
  fUid : Option Nat
  fUserId : Option String
  fTenantId : Option String
  fUpn : Option String
  fSubscriptionId : Option String
deriving DecidableEq, Repr

def UserFilter.matches (f : UserFilter) (u : User) : Bool :=
  (f.fUid.all fun i => i = u.uid) &&
  (f.fUserId.all fun s => s = u.userId) &&
  (f.fTenantId.all fun s => s = u.tenantId) &&
  (f.fUpn.all fun s => s = u.upn) &&
  (f.fSubscriptionId.all fun s => s = u.subscriptionId)

/-- An update document for the user store: the fields it carries are set,
all other fields of a matched document are preserved.  Modelled from the
spec: §4.4 (`findOneAndUpdate(filter, patch)` applies the patch) and §4.2
step 2 (fields outside the patch, such as `upn`, are preserved). -/
structure UserPatch where
  pUserId : Option String
  pTenantId : Option String
  pUpn : Option String
  pRole : Option Role
  pLicense : Option String
  pSubscriptionId : Option String
deriving DecidableEq, Repr

def applyUserPatch (p : UserPatch) (u : User) : User :=
  { u with
    userId := p.pUserId.getD u.userId
    tenantId := p.pTenantId.getD u.tenantId
    upn := p.pUpn.getD u.upn
    role := p.pRole.getD u.role
    license := p.pLicense.getD u.license
    subscriptionId := p.pSubscriptionId.getD u.subscriptionId }

/-- The document created when a user upsert finds no match: filter equality
fields plus update fields, with a fresh store key.  Modelled from the spec:
§4.4 upsert semantics (create if no match). -/
def createUser (f : UserFilter) (p : UserPatch) (fresh : Nat) : User :=
  { uid := fresh
    userId := p.pUserId.getD (f.fUserId.getD "")
    tenantId := p.pTenantId.getD (f.fTenantId.getD "")
    upn := p.pUpn.getD (f.fUpn.getD "")
    role := p.pRole.getD Role.Member
    license := p.pLicense.getD ""
    subscriptionId := p.pSubscriptionId.getD (f.fSubscriptionId.getD "") }

/-- `userRepository.findOneAndUpdate(filter, patch)`: patch the first
matching document, or append a freshly created one.  Modelled from the
spec: §4.4. -/
def userUpsert (f : UserFilter) (p : UserPatch) :
    List User → Nat → List User × Nat
  | [], n => ([createUser f p n], n + 1)
  | u :: rest, n =>
    if f.matches u then (applyUserPatch p u :: rest, n)
    else
      let (l, n2) := userUpsert f p rest n
      (u :: l, n2)

/-- `userRepository.find(filter)`.  Modelled from the spec: §4.4. -/
def findUsers (f : UserFilter) (l : List User) : List User :=
  l.filter f.matches

/-- `organizationRepository.findOne({tenantId})`.  Modelled from the spec:
§4.4. -/
def orgFindOne (t : String) (l : List Organization) : Option Organization :=
  l.find? fun o => o.tenantId = t

/-- `organizationRepository.findOneAndUpdate({tenantId}, {tenantId})` as
used by `getOrCreateOrganization`: return the first organization of the
tenant after applying the patch, or create an empty one.  Modelled from
the spec: §4.4 upsert semantics and §3 (organization created empty on
first resolve for an unseen tenant). -/
def orgUpsertByTenant (t : String) :
    List Organization → Nat → Organization × List Organization × Nat
  | [], n =>
    let o : Organization := ⟨n, t, []⟩
    (o, [o], n + 1)
  | o :: rest, n =>
    if o.tenantId = t then
      let o2 := { o with tenantId := t }
      (o2, o2 :: rest, n)
    else
      let (r, rest2, n2) := orgUpsertByTenant t rest n
      (r, o :: rest2, n2)

/-- `organizationRepository.findOneAndUpdate({_id}, organization)` as used
by `updateOrganizationSubscriptions`: replace the first document with the
given store key by the whole patched organization, or insert it.  Modelled
from the spec: §4.4. -/
def orgReplaceById (i : Nat) (o2 : Organization) :
    List Organization → List Organization
  | [] => [o2]
  | o :: rest =>
    if o.uid = i then o2 :: rest else o :: orgReplaceById i o2 rest

/-- The `{access_token}` shape of `IAuthenticateResponse`. -/
structure AuthResponse where
  access_token : String
deriving DecidableEq, Repr

/-- The `AddSubscription` payload returned by the resolve endpoint: its
`subscription` field may be absent. -/
structure AddSubscription where
  subscription : Option Subscription
deriving DecidableEq, Repr

/-- One possible behaviour of the marketplace HTTP collaborators during a
run: the outcome of `getAppAuthenticationToken`, of the resolve `post`
inside `getSubscriptionDetails` (which may itself resolve to `undefined`),
and of the activation `post` inside `callActivateSubscriptionApi` (transport
failure, or the `Message` field of the response body). -/
structure MarketplaceBehavior where
  auth : Except Err AuthResponse
  fetch : Except Err (Option AddSubscription)
  activate : Except Err (Option String)
deriving Repr

/-- The `{planId, quantity}` activation payload (`ActivateSubscription`),
together with the subscription id templated into the activation URL. -/
structure ActivateCall where
  subscriptionId : String
  planId : String
  quantity : Nat
deriving DecidableEq, Repr

/-- `callActivateSubscriptionApi`: propagate a transport failure, and treat
a truthy `Message` in the response body as an error. -/
def callActivateSubscriptionApi (resp : Except Err (Option String)) :
    Except Err Unit :=
  match resp with
  | .error e => .error e
  | .ok m =>
    match m with
    | some s => if s = "" then .ok () else .error (.activationMessage s)
    | none => .ok ()

/-- `activateSubscription`: skip the API call when the status is already
`Subscribed`; otherwise call it with `{planId, quantity}` and on success
set the in-memory status to `Subscribed`.  Also returns the list of
activation API invocations the run made. -/
def activateSubscription (sub : Subscription)
    (resp : Except Err (Option String)) :
    Except Err Subscription × List ActivateCall :=
  if sub.saasSubscriptionStatus = SaasSubscriptionStatus.Subscribed then
    (.ok sub, [])
  else
    let call : ActivateCall := ⟨sub.id, sub.planId, sub.quantity⟩
    match callActivateSubscriptionApi resp with
    | .error e => (.error e, [call])
    | .ok _ =>
      (.ok { sub with
              saasSubscriptionStatus := SaasSubscriptionStatus.Subscribed },
        [call])

/-- `getOrganizationSubscription(organization, subscriptionRes)`:
`organization?.subscriptions?.find(s => s.id === subscriptionRes.id)`. -/
def getOrganizationSubscription (org : Option Organization)
    (sub : Subscription) : Option Subscription :=
  org.bind fun o => o.subscriptions.find? fun s => s.id = sub.id

/-- `getOrCreateOrganization`: upsert the organization document of
`purchaser.tenantId`. -/
def getOrCreateOrganization (sub : Subscription) (db : DB) :
    Organization × DB :=
  let (o, l, n) := orgUpsertByTenant sub.purchaser.tenantId
    db.organizations db.nextId
  (o, { db with organizations := l, nextId := n })

/-- `updateOrganizationSubscriptions`: append the resolved subscription to
the in-memory list and write the whole organization back by `_id`. -/
def updateOrganizationSubscriptions (org : Organization)
    (sub : Subscription) (db : DB) : DB :=
  let org2 := { org with subscriptions := org.subscriptions ++ [sub] }
  { db with organizations := orgReplaceById org.uid org2 db.organizations }

/-- One entry of the query list built by `prepareFindOwnerQuery`. -/
structure OwnerQuery where
  userId : String
  tenantId : String
  upn : String
deriving DecidableEq, Repr

/-- `prepareFindOwnerQuery`: one query for the purchaser, plus one for the
beneficiary when their object ids differ. -/
def prepareFindOwnerQuery (isPurchaserIsBeneficiary : Bool)
    (sub : Subscription) : List OwnerQuery :=
  if isPurchaserIsBeneficiary then
    [⟨sub.purchaser.objectId, sub.purchaser.tenantId, sub.purchaser.emailId⟩]
  else
    [⟨sub.purchaser.objectId, sub.purchaser.tenantId, sub.purchaser.emailId⟩,
      ⟨sub.beneficiary.objectId, sub.beneficiary.tenantId,
        sub.beneficiary.emailId⟩]

/-- The user-store filter corresponding to one owner query. -/
def ownerFilter (q : OwnerQuery) : UserFilter :=
  ⟨none, some q.userId, some q.tenantId, some q.upn, none⟩

/-- The `userData` document written for one owner
(`{...userQuery, role, license, subscriptionId}`). -/
def ownerPatch (sub : Subscription) (q : OwnerQuery) : UserPatch :=
  let isSubscribe :=
    sub.saasSubscriptionStatus = SaasSubscriptionStatus.Subscribed
  { pUserId := some q.userId
    pTenantId := some q.tenantId
    pUpn := some q.upn
    pRole := some (if isSubscribe then Role.Admin else Role.Member)
    pLicense := some (if isSubscribe then sub.planId else "")
    pSubscriptionId := some (if isSubscribe then sub.id else "") }

/-- One `findOneAndUpdate` issued against the user store. -/
structure UserWrite where
  filter : UserFilter
  patch : UserPatch
deriving DecidableEq, Repr

/-- One iteration of the `findOwnerOrCreateUser` loop: upsert the user of
one owner query and record the write. -/
def ownerStep (sub : Subscription) (acc : DB × List UserWrite)
    (q : OwnerQuery) : DB × List UserWrite :=
  let (l, n) := userUpsert (ownerFilter q) (ownerPatch sub q)
    acc.1.users acc.1.nextId
  ({ acc.1 with users := l, nextId := n },
    acc.2 ++ [⟨ownerFilter q, ownerPatch sub q⟩])

/-- `findOwnerOrCreateUser`: upsert one user per owner query, in order.
Also returns the list of user-store writes the loop made. -/
def findOwnerOrCreateUser (queries : List OwnerQuery) (sub : Subscription)
    (db : DB) : DB × List UserWrite :=
  queries.foldl (ownerStep sub) (db, [])

/-- `getOrCreateSubscriptionOwners`: build the owner query list from the
purchaser/beneficiary object ids and run the owner upserts. -/
def getOrCreateSubscriptionOwners (sub : Subscription) (db : DB) :
    DB × List UserWrite :=
  let isPurchaserIsBeneficiary :=
    sub.purchaser.objectId = sub.beneficiary.objectId
  findOwnerOrCreateUser (prepareFindOwnerQuery isPurchaserIsBeneficiary sub)
    sub db

/-- Everything observable about one `resolveSubscription` run: the value
returned or error thrown, the final store state, the activation API calls
made, the user-store writes made, and the number of organization-store
writes made. -/
structure ResolveResult where
  outcome : Except Err (Option Subscription)
  db : DB
  activateCalls : List ActivateCall
  userWrites : List UserWrite
  orgWrites : Nat
deriving Repr

/-- `resolveSubscription(token)` under a given marketplace behaviour and
store state.  An `.ok none` outcome is the JavaScript function resolving
with `undefined`; `.error` is a thrown exception. -/
def resolveSubscription (mk : MarketplaceBehavior) (db : DB) :
    ResolveResult :=
  match mk.auth with
  | .error e => ⟨.error e, db, [], [], 0⟩
  | .ok a =>
    if a.access_token = "" then
      ⟨.ok none, db, [], [], 0⟩
    else
      match mk.fetch with
      | .error e => ⟨.error e, db, [], [], 0⟩
      | .ok none => ⟨.error .typeError, db, [], [], 0⟩
      | .ok (some addSub) =>
        match addSub.subscription with
        | none => ⟨.error .typeError, db, [], [], 0⟩
        | some sub0 =>
          match activateSubscription sub0 mk.activate with
          | (.error e, calls) => ⟨.error e, db, calls, [], 0⟩
          | (.ok sub, calls) =>
            let (org, db1) := getOrCreateOrganization sub db
            let dbSub := getOrganizationSubscription (some org) sub
            let org2 :=
              match dbSub with
              | some ds =>
                { org with
                  subscriptions :=
                    org.subscriptions.filter fun s => s.id ≠ ds.id }
              | none => org
            let db2 := updateOrganizationSubscriptions org2 sub db1
            let (db3, writes) := getOrCreateSubscriptionOwners sub db2
            ⟨.ok (some sub), db3, calls, writes, 2⟩

/-- The `defaultUserSubscription` document of
`removeAllSubscriptionUsers`. -/
def defaultUserSubscription : UserPatch :=
  ⟨none, none, none, some Role.Member, some "Free", some ""⟩

/-- One iteration of the `removeAllSubscriptionUsers` loop: reset the user
found in the snapshot, addressed by its store key, to the default
unlicensed state. -/
def downgradeStep (d : DB) (u : User) : DB :=
  let (l, n) := userUpsert ⟨some u.uid, none, none, none, none⟩
    defaultUserSubscription d.users d.nextId
  { d with users := l, nextId := n }

/-- `removeAllSubscriptionUsers(tenantId, subscriptionId)`: find the bound
users and reset each of them, by `_id`, to the default unlicensed state. -/
def removeAllSubscriptionUsers (tenantId subscriptionId : String)
    (db : DB) : DB :=
  let users := findUsers ⟨none, none, some tenantId, none, some subscriptionId⟩
    db.users
  users.foldl downgradeStep db

/-- `updateSubscriptionStatus(tenantId, subscription)`: load the tenant's
organization, find the stored subscription by id (a missing organization or
missing entry makes the JavaScript code dereference `undefined` and throw),
flag it `Unsubscribed`, filter it out of the list and write it back as the
new tail. -/
def updateSubscriptionStatus (tenantId : String) (sub : Subscription)
    (db : DB) : Except Err Unit × DB :=
  let org? := orgFindOne tenantId db.organizations
  match getOrganizationSubscription org? sub with
  | none => (.error .typeError, db)
  | some dbSub =>
    match org? with
    | none => (.error .typeError, db)
    | some org =>
      let dbSub2 :=
        { dbSub with
          saasSubscriptionStatus := SaasSubscriptionStatus.Unsubscribed }
      let org2 :=
        { org with
          subscriptions := org.subscriptions.filter fun s => s.id ≠ dbSub2.id }
      (.ok (), updateOrganizationSubscriptions org2 dbSub2 db)

/-- `removeSubscription(subscription)` — the unsubscribe flow: downgrade
all bound users, then flag the organization's subscription entry. -/
def removeSubscription (sub : Subscription) (db : DB) :
    Except Err Unit × DB :=
  let db1 := removeAllSubscriptionUsers sub.purchaser.tenantId sub.id db
  updateSubscriptionStatus sub.purchaser.tenantId sub db1

/-!
Proof-level definitions: states and invariants the theorems below refer
to.  They are not part of the embedding of the source; each is derived
from it.
-/

/-- The `{tenantId, subscriptionId}` filter used by
`removeAllSubscriptionUsers`. -/
def boundUserFilter (t sid : String) : UserFilter :=
  ⟨none, none, some t, none, some sid⟩

/-- The default unlicensed state applied to one bound user. -/
def downgradeUser (u : User) : User :=
  applyUserPatch defaultUserSubscription u

/-- The user list with every user bound to `(t, sid)` reset to the default
unlicensed state and every other user untouched. -/
def downgradedUsers (t sid : String) (l : List User) : List User :=
  l.map fun u => if (boundUserFilter t sid).matches u then downgradeUser u
    else u

/-- Proof-level invariant: the first user matching `f` exists and is a
fixed point of the patch `p`, so a repeated upsert is a no-op. -/
def firstMatchPatched (f : UserFilter) (p : UserPatch) : List User → Prop
  | [] => False
  | u :: rest =>
    if f.matches u then applyUserPatch p u = u
    else firstMatchPatched f p rest

/-- The purchaser owner query of a subscription. -/
def purchaserQuery (sub : Subscription) : OwnerQuery :=
  ⟨sub.purchaser.objectId, sub.purchaser.tenantId, sub.purchaser.emailId⟩

/-- The beneficiary owner query of a subscription. -/
def beneficiaryQuery (sub : Subscription) : OwnerQuery :=
  ⟨sub.beneficiary.objectId, sub.beneficiary.tenantId,
    sub.beneficiary.emailId⟩

/-- The organization record the resolve success path of the code leaves in
the store: the previous list purged of the resolved id, with the freshly
resolved subscription appended. -/
def resolvedOrg (org : Organization) (sub : Subscription) : Organization :=
  ⟨org.uid, org.tenantId,
    (org.subscriptions.filter fun s => s.id ≠ sub.id) ++ [sub]⟩

/-- The organization-store steps of the resolve success path (steps 4-6),
split out of `resolveSubscription` for the proofs below. -/
def orgPhase (sub : Subscription) (db : DB) : DB :=
  let p := getOrCreateOrganization sub db
  let org2 :=
    match getOrganizationSubscription (some p.1) sub with
    | some ds =>
      { p.1 with
        subscriptions := p.1.subscriptions.filter fun s => s.id ≠ ds.id }
    | none => p.1
  updateOrganizationSubscriptions org2 sub p.2

/-!
Concrete fixtures used by witness theorems.
-/

/-- A sample term used by concrete witnesses. -/
def sampleTerm : Term := ⟨"P1M", "2022-01-01", "2022-02-01"⟩

/-- Build a subscription fixing the descriptive metadata fields. -/
def mkSub (id planId status : String) (purch benef : Principal)
    (qty : Nat) : Subscription :=
  ⟨id, "pub-1", "offer-1", "name-1", status, benef, purch, planId, sampleTerm,
    true, false, false, [], "None", "2022-03-01", qty, "None"⟩

def samplePurchaser : Principal := ⟨"p@t1", "u1", "t1", "pid-p"⟩

def sampleBeneficiary : Principal := ⟨"b@t1", "u2", "t1", "pid-b"⟩

def samplePendingSub : Subscription :=
  mkSub "sub-1" "p1" SaasSubscriptionStatus.PendingFulfillmentStart
    samplePurchaser samplePurchaser 5

def dbEmpty : DB := ⟨[], [], 0⟩

/-- A behaviour whose activation response carries a truthy `Message`. -/
def mkBehaviorActFail : MarketplaceBehavior :=
  ⟨.ok ⟨"tok"⟩, .ok (some ⟨some samplePendingSub⟩), .ok (some "bad plan")⟩

/-- A behaviour whose authentication step yields a falsy access token. -/
def mkFalsyToken : MarketplaceBehavior :=
  ⟨.ok ⟨""⟩, .error (.external 0), .error (.external 0)⟩

/-- A subscription whose `id` and `purchaser.tenantId` are both absent
(empty), together with a store state for that degenerate tenant. -/
def emptyIdPrincipal : Principal := ⟨"", "", "", ""⟩

def emptyIdSub : Subscription :=
  mkSub "" "" SaasSubscriptionStatus.Subscribed emptyIdPrincipal
    emptyIdPrincipal 1

def dbEmptyIds : DB :=
  ⟨[⟨0, "", [emptyIdSub]⟩], [⟨1, "", "", "u@e", Role.Admin, "p", ""⟩], 2⟩

/-- A behaviour resolving a pending subscription that activates cleanly. -/
def mkBehaviorPending : MarketplaceBehavior :=
  ⟨.ok ⟨"tok"⟩, .ok (some ⟨some samplePendingSub⟩), .ok none⟩

/-- A pending subscription whose purchaser and beneficiary differ. -/
def samplePendingSubDiff : Subscription :=
  mkSub "sub-2" "p2" SaasSubscriptionStatus.PendingFulfillmentStart
    samplePurchaser sampleBeneficiary 3

def mkBehaviorPendingDiff : MarketplaceBehavior :=
  ⟨.ok ⟨"tok"⟩, .ok (some ⟨some samplePendingSubDiff⟩), .ok none⟩

/-- An already-active subscription bound to tenant `t1`. -/
def sampleSubscribedSub : Subscription :=
  mkSub "sub-1" "p1" SaasSubscriptionStatus.Subscribed samplePurchaser
    samplePurchaser 5

/-- A store holding the `t1` organization with `sub-1` plus one licensed
and one unlicensed user. -/
def dbUnsub : DB :=
  ⟨[⟨2, "t1", [sampleSubscribedSub]⟩],
    [⟨0, "u1", "t1", "p@t1", Role.Admin, "p1", "sub-1"⟩,
      ⟨1, "u9", "t1", "x@t1", Role.Member, "", ""⟩], 3⟩

/-- A store with no organization for tenant `t1` but one bound user. -/
def dbNoOrg : DB :=
  ⟨[], [⟨0, "u1", "t1", "p@t1", Role.Admin, "p1", "sub-1"⟩], 1⟩

/-!
Helper lemmas about the store operations and the two workflows.
-/
theorem downgradeUser_eq (u : User) :
    downgradeUser u =
      { u with
          role := Role.Member
          license := "Free"
          subscriptionId := "" } := rfl

theorem userUpsert_uid_found (u : User) :
    ∀ (pre post : List User) (n : Nat), (∀ v ∈ pre, v.uid ≠ u.uid) →
    userUpsert ⟨some u.uid, none, none, none, none⟩ defaultUserSubscription
      (pre ++ u :: post) n = (pre ++ downgradeUser u :: post, n) := by
  intro pre
  induction pre with
  | nil =>
    intro post n _
    simp [userUpsert, UserFilter.matches, downgradeUser]
  | cons v pre ih =>
    intro post n hpre
    have hv : v.uid ≠ u.uid := hpre v (List.mem_cons_self v pre)
    have hm : (⟨some u.uid, none, none, none, none⟩ : UserFilter).matches v
        = false := by
      simp [UserFilter.matches]
      exact fun h => absurd h.symm hv
    simp [userUpsert, hm, ih post n (fun w hw => hpre w (List.mem_cons_of_mem v hw))]

theorem downgradeFold (t sid : String) :
    ∀ (l pre : List User) (orgs : List Organization) (n : Nat),
    ((pre ++ l).map User.uid).Nodup →
    List.foldl downgradeStep ⟨orgs, pre ++ l, n⟩
      (l.filter (boundUserFilter t sid).matches) =
      ⟨orgs, pre ++ (downgradedUsers t sid l), n⟩ := by
  intro l
  induction l with
  | nil => intro pre orgs n _; simp [downgradedUsers]
  | cons h l ih =>
    intro pre orgs n hnd
    by_cases hm : (boundUserFilter t sid).matches h
    · have hpre : ∀ v ∈ pre, v.uid ≠ h.uid := by
        intro v hv heq
        have hnd2 : (pre.map User.uid ++ (h :: l).map User.uid).Nodup := by
          simpa using hnd
        have hdisj := (List.nodup_append.mp hnd2).2.2
        exact hdisj (List.mem_map_of_mem User.uid hv) (by simp [heq])
      have hstep : downgradeStep ⟨orgs, pre ++ h :: l, n⟩ h =
          ⟨orgs, (pre ++ [downgradeUser h]) ++ l, n⟩ := by
        simp only [downgradeStep]
        rw [userUpsert_uid_found h pre l n hpre]
        simp
      rw [List.filter_cons_of_pos hm, List.foldl_cons, hstep,
        ih (pre ++ [downgradeUser h]) orgs n ?hnd2]
      · simp [downgradedUsers, hm]
      case hnd2 =>
        have : (pre ++ [downgradeUser h] ++ l).map User.uid =
            (pre ++ h :: l).map User.uid := by
          simp [downgradeUser, applyUserPatch, defaultUserSubscription]
        rw [this]; exact hnd
    · rw [List.filter_cons_of_neg hm]
      have : pre ++ h :: l = (pre ++ [h]) ++ l := by simp
      rw [this, ih (pre ++ [h]) orgs n (by simpa using hnd)]
      simp [downgradedUsers, hm]

theorem removeAllSubscriptionUsers_eq (t sid : String) (db : DB)
    (hnd : (db.users.map User.uid).Nodup) :
    removeAllSubscriptionUsers t sid db =
      ⟨db.organizations, downgradedUsers t sid db.users, db.nextId⟩ := by
  have := downgradeFold t sid db.users [] db.organizations db.nextId
    (by simpa using hnd)
  simpa [removeAllSubscriptionUsers, findUsers, boundUserFilter] using this

theorem updateSubscriptionStatus_users (t : String) (S : Subscription)
    (d : DB) : (updateSubscriptionStatus t S d).2.users = d.users := by
  unfold updateSubscriptionStatus
  cases h : getOrganizationSubscription (orgFindOne t d.organizations) S with
  | none => simp [h]
  | some dbSub =>
    cases h2 : orgFindOne t d.organizations with
    | none =>
      rw [h2] at h
      simp [getOrganizationSubscription] at h
    | some org =>
      rw [h2] at h
      simp [h, updateOrganizationSubscriptions]

theorem foldl_downgradeStep_organizations :
    ∀ (l : List User) (db : DB),
    (l.foldl downgradeStep db).organizations = db.organizations := by
  intro l
  induction l with
  | nil => intro db; rfl
  | cons u l ih =>
    intro db
    rw [List.foldl_cons, ih (downgradeStep db u)]
    rfl

theorem removeAll_organizations (t sid : String) (db : DB) :
    (removeAllSubscriptionUsers t sid db).organizations =
      db.organizations := by
  have h0 : removeAllSubscriptionUsers t sid db =
      (findUsers (boundUserFilter t sid) db.users).foldl downgradeStep db :=
    rfl
  rw [h0]
  exact foldl_downgradeStep_organizations _ db

theorem orgFindOne_replaceById (t : String) (org org2 : Organization)
    (h2t : org2.tenantId = t) :
    ∀ l : List Organization, (l.map Organization.uid).Nodup →
    orgFindOne t l = some org →
    orgFindOne t (orgReplaceById org.uid org2 l) = some org2 := by
  intro l
  induction l with
  | nil => intro _ h; simp [orgFindOne] at h
  | cons o rest ih =>
    intro hnd hfind
    by_cases ho : o.tenantId = t
    · have horg : o = org := by
        have : orgFindOne t (o :: rest) = some o := by
          simp [orgFindOne, List.find?_cons_of_pos, ho]
        rw [this] at hfind
        exact Option.some.inj hfind
      have : orgReplaceById org.uid org2 (o :: rest) = org2 :: rest := by
        simp [orgReplaceById, horg]
      rw [this]
      simp [orgFindOne, List.find?_cons_of_pos, h2t]
    · have hfind2 : orgFindOne t rest = some org := by
        simpa [orgFindOne, List.find?_cons_of_neg, ho] using hfind
      have hmem : org ∈ rest :=
        List.mem_of_find?_eq_some hfind2
      have hne : o.uid ≠ org.uid := by
        intro he
        have : org.uid ∈ rest.map Organization.uid :=
          List.mem_map_of_mem Organization.uid hmem
        rw [← he] at this
        exact (List.nodup_cons.mp (by simpa using hnd)).1 this
      have : orgReplaceById org.uid org2 (o :: rest) =
          o :: orgReplaceById org.uid org2 rest := by
        simp [orgReplaceById, hne]
      rw [this]
      have hnd2 : (rest.map Organization.uid).Nodup :=
        (List.nodup_cons.mp (by simpa using hnd)).2
      simpa [orgFindOne, List.find?_cons_of_neg, ho] using
        ih hnd2 hfind2

theorem updateSubscriptionStatus_found (t : String) (S : Subscription)
    (d : DB) (org : Organization) (dbSub : Subscription)
    (hf : orgFindOne t d.organizations = some org)
    (hs : org.subscriptions.find? (fun s => s.id = S.id) = some dbSub) :
    updateSubscriptionStatus t S d =
      (.ok (), updateOrganizationSubscriptions
        { org with
            subscriptions := org.subscriptions.filter fun s => s.id ≠ dbSub.id }
        { dbSub with
            saasSubscriptionStatus := SaasSubscriptionStatus.Unsubscribed }
        d) := by
  unfold updateSubscriptionStatus
  have hgos : getOrganizationSubscription (orgFindOne t d.organizations) S =
      some dbSub := by
    rw [hf]
    simpa [getOrganizationSubscription] using hs
  have hgos2 : getOrganizationSubscription (some org) S = some dbSub := by
    simpa [getOrganizationSubscription] using hs
  simp [hgos, hf, hgos2]

theorem updateOrganizationSubscriptions_organizations (org : Organization)
    (sub : Subscription) (d : DB) :
    (updateOrganizationSubscriptions org sub d).organizations =
      orgReplaceById org.uid
        { org with subscriptions := org.subscriptions ++ [sub] }
        d.organizations := rfl

theorem ownerFold_writes (sub : Subscription) :
    ∀ (qs : List OwnerQuery) (db : DB) (ws : List UserWrite),
    (qs.foldl (ownerStep sub) (db, ws)).2 =
      ws ++ qs.map fun q => (⟨ownerFilter q, ownerPatch sub q⟩ : UserWrite) := by
  intro qs
  induction qs with
  | nil => intro db ws; simp
  | cons q qs ih =>
    intro db ws
    rw [List.foldl_cons,
      show ownerStep sub (db, ws) q =
        ((ownerStep sub (db, ws) q).1,
          ws ++ [(⟨ownerFilter q, ownerPatch sub q⟩ : UserWrite)]) from rfl,
      ih _ _]
    simp

theorem findOwnerOrCreateUser_writes (qs : List OwnerQuery)
    (sub : Subscription) (db : DB) :
    (findOwnerOrCreateUser qs sub db).2 =
      qs.map fun q => (⟨ownerFilter q, ownerPatch sub q⟩ : UserWrite) := by
  have h := ownerFold_writes sub qs db []
  simpa [findOwnerOrCreateUser] using h

theorem firstMatchPatched_upsert_noop (f : UserFilter) (p : UserPatch) :
    ∀ l : List User, firstMatchPatched f p l →
    ∀ n, userUpsert f p l n = (l, n) := by
  intro l
  induction l with
  | nil => intro h; exact absurd h (by simp [firstMatchPatched])
  | cons u rest ih =>
    intro h n
    by_cases hm : f.matches u
    · have hfix : applyUserPatch p u = u := by
        simpa [firstMatchPatched, hm] using h
      simp [userUpsert, hm, hfix]
    · have htl : firstMatchPatched f p rest := by
        simpa [firstMatchPatched, hm] using h
      simp [userUpsert, hm, ih htl n]

theorem ownerPatch_fixpoint (sub : Subscription) (q : OwnerQuery)
    (u : User) :
    applyUserPatch (ownerPatch sub q) (applyUserPatch (ownerPatch sub q) u)
      = applyUserPatch (ownerPatch sub q) u := by
  simp [applyUserPatch, ownerPatch]

theorem ownerFilter_matches_patched (sub : Subscription) (q : OwnerQuery)
    (u : User) :
    (ownerFilter q).matches (applyUserPatch (ownerPatch sub q) u) = true := by
  simp [ownerFilter, UserFilter.matches, applyUserPatch, ownerPatch]

theorem ownerFilter_matches_created (sub : Subscription) (q : OwnerQuery)
    (n : Nat) :
    (ownerFilter q).matches (createUser (ownerFilter q) (ownerPatch sub q) n)
      = true := by
  simp [ownerFilter, UserFilter.matches, createUser, ownerPatch]

theorem createUser_fixpoint (sub : Subscription) (q : OwnerQuery) (n : Nat) :
    applyUserPatch (ownerPatch sub q)
        (createUser (ownerFilter q) (ownerPatch sub q) n) =
      createUser (ownerFilter q) (ownerPatch sub q) n := by
  simp [applyUserPatch, createUser, ownerPatch]

theorem upsert_establishes_FMP (sub : Subscription) (q : OwnerQuery) :
    ∀ (l : List User) (n : Nat),
    firstMatchPatched (ownerFilter q) (ownerPatch sub q)
      (userUpsert (ownerFilter q) (ownerPatch sub q) l n).1 := by
  intro l
  induction l with
  | nil =>
    intro n
    simp [userUpsert, firstMatchPatched, ownerFilter_matches_created,
      createUser_fixpoint]
  | cons u rest ih =>
    intro n
    by_cases hm : (ownerFilter q).matches u
    · simp [userUpsert, hm, firstMatchPatched, ownerFilter_matches_patched,
        ownerPatch_fixpoint]
    · simp [userUpsert, hm, firstMatchPatched, ih n]

theorem ownerFilter_not_matches_patched_of_ne (sub : Subscription)
    (q1 q2 : OwnerQuery) (hne : q1.userId ≠ q2.userId) (u : User) :
    (ownerFilter q1).matches (applyUserPatch (ownerPatch sub q2) u)
      = false := by
  simp [ownerFilter, UserFilter.matches, applyUserPatch, ownerPatch]
  intro h
  exact absurd h hne

theorem ownerFilter_not_matches_created_of_ne (sub : Subscription)
    (q1 q2 : OwnerQuery) (hne : q1.userId ≠ q2.userId) (n : Nat) :
    (ownerFilter q1).matches
      (createUser (ownerFilter q2) (ownerPatch sub q2) n) = false := by
  simp [ownerFilter, UserFilter.matches, createUser, ownerPatch]
  intro h
  exact absurd h hne

theorem FMP_preserved_by_other_upsert (sub : Subscription)
    (q1 q2 : OwnerQuery) (hne : q1.userId ≠ q2.userId) :
    ∀ (l : List User) (n : Nat),
    firstMatchPatched (ownerFilter q1) (ownerPatch sub q1) l →
    firstMatchPatched (ownerFilter q1) (ownerPatch sub q1)
      (userUpsert (ownerFilter q2) (ownerPatch sub q2) l n).1 := by
  intro l
  induction l with
  | nil => intro n h; exact absurd h (by simp [firstMatchPatched])
  | cons u rest ih =>
    intro n h
    by_cases hm2 : (ownerFilter q2).matches u
    · by_cases hm1 : (ownerFilter q1).matches u
      · -- u cannot match both filters since the userIds differ
        exfalso
        simp [ownerFilter, UserFilter.matches] at hm1 hm2
        exact hne (hm1.1.1.trans hm2.1.1.symm)
      · have htl : firstMatchPatched (ownerFilter q1) (ownerPatch sub q1)
            rest := by
          simpa [firstMatchPatched, hm1] using h
        simp [userUpsert, hm2, firstMatchPatched,
          ownerFilter_not_matches_patched_of_ne sub q1 q2 hne, htl]
    · by_cases hm1 : (ownerFilter q1).matches u
      · have hfix : applyUserPatch (ownerPatch sub q1) u = u := by
          simpa [firstMatchPatched, hm1] using h
        simp [userUpsert, hm2, firstMatchPatched, hm1, hfix]
      · have htl : firstMatchPatched (ownerFilter q1) (ownerPatch sub q1)
            rest := by
          simpa [firstMatchPatched, hm1] using h
        simp [userUpsert, hm2, firstMatchPatched, hm1, ih n htl]

theorem foldl_ownerStep_organizations (sub : Subscription) :
    ∀ (qs : List OwnerQuery) (acc : DB × List UserWrite),
    ((qs.foldl (ownerStep sub) acc).1).organizations =
      acc.1.organizations := by
  intro qs
  induction qs with
  | nil => intro acc; rfl
  | cons q qs ih =>
    intro acc
    rw [List.foldl_cons, ih (ownerStep sub acc q)]
    rfl

theorem owners_organizations (sub : Subscription) (d : DB) :
    ((getOrCreateSubscriptionOwners sub d).1).organizations =
      d.organizations :=
  foldl_ownerStep_organizations sub _ (d, [])

theorem ownersPhase_noop (sub : Subscription) (d : DB)
    (h : ∀ q ∈ prepareFindOwnerQuery
      (sub.purchaser.objectId = sub.beneficiary.objectId) sub,
      firstMatchPatched (ownerFilter q) (ownerPatch sub q) d.users) :
    (getOrCreateSubscriptionOwners sub d).1 = d := by
  unfold getOrCreateSubscriptionOwners findOwnerOrCreateUser
  by_cases hpb : sub.purchaser.objectId = sub.beneficiary.objectId
  · have hd : decide (sub.purchaser.objectId = sub.beneficiary.objectId)
        = true := decide_eq_true hpb
    have h1 := h (purchaserQuery sub)
      (by simp [prepareFindOwnerQuery, hd, purchaserQuery])
    have hno := firstMatchPatched_upsert_noop _ _ _ h1 d.nextId
    simp only [purchaserQuery] at hno
    simp [prepareFindOwnerQuery, hd, ownerStep]
    rw [hno]
  · have hd : decide (sub.purchaser.objectId = sub.beneficiary.objectId)
        = false := decide_eq_false hpb
    have h1 := h (purchaserQuery sub)
      (by simp [prepareFindOwnerQuery, hd, purchaserQuery])
    have h2 := h (beneficiaryQuery sub)
      (by simp [prepareFindOwnerQuery, hd, beneficiaryQuery])
    have hno1 := firstMatchPatched_upsert_noop _ _ _ h1 d.nextId
    have hno2 := firstMatchPatched_upsert_noop _ _ _ h2 d.nextId
    simp only [purchaserQuery] at hno1
    simp only [beneficiaryQuery] at hno2
    simp [prepareFindOwnerQuery, hd, ownerStep]
    rw [hno1]
    simp only
    rw [hno2]

theorem owners_establish_FMP (sub : Subscription) (d : DB) :
    ∀ q ∈ prepareFindOwnerQuery
      (sub.purchaser.objectId = sub.beneficiary.objectId) sub,
    firstMatchPatched (ownerFilter q) (ownerPatch sub q)
      ((getOrCreateSubscriptionOwners sub d).1).users := by
  intro q hq
  unfold getOrCreateSubscriptionOwners findOwnerOrCreateUser
  by_cases hpb : sub.purchaser.objectId = sub.beneficiary.objectId
  · have hd : decide (sub.purchaser.objectId = sub.beneficiary.objectId)
        = true := decide_eq_true hpb
    have hq1 : q = purchaserQuery sub := by
      simpa [prepareFindOwnerQuery, hd, purchaserQuery] using hq
    subst hq1
    simp [prepareFindOwnerQuery, hd, ownerStep, purchaserQuery]
    exact upsert_establishes_FMP sub _ d.users d.nextId
  · have hd : decide (sub.purchaser.objectId = sub.beneficiary.objectId)
        = false := decide_eq_false hpb
    have hne : (purchaserQuery sub).userId ≠ (beneficiaryQuery sub).userId :=
      by simpa [purchaserQuery, beneficiaryQuery] using hpb
    have hq12 : q = purchaserQuery sub ∨ q = beneficiaryQuery sub := by
      simpa [prepareFindOwnerQuery, hd, purchaserQuery, beneficiaryQuery]
        using hq
    rcases hq12 with rfl | rfl
    · simp [prepareFindOwnerQuery, hd, ownerStep, purchaserQuery,
        beneficiaryQuery]
      exact FMP_preserved_by_other_upsert sub _ _ hne _ _
        (upsert_establishes_FMP sub _ d.users d.nextId)
    · simp [prepareFindOwnerQuery, hd, ownerStep, purchaserQuery,
        beneficiaryQuery]
      exact upsert_establishes_FMP sub _ _ _

theorem orgUpsertByTenant_found (t : String) :
    ∀ (l : List Organization) (org : Organization) (n : Nat),
    orgFindOne t l = some org →
    orgUpsertByTenant t l n = (org, l, n) := by
  intro l
  induction l with
  | nil => intro org n h; simp [orgFindOne] at h
  | cons o rest ih =>
    intro org n h
    by_cases ho : o.tenantId = t
    · have horg : o = org := by
        have h3 : orgFindOne t (o :: rest) = some o := by
          simp [orgFindOne, List.find?_cons_of_pos, ho]
        rw [h3] at h
        exact Option.some.inj h
      subst horg
      have ho2 : ({ o with tenantId := t } : Organization) = o := by
        rw [← ho]
      simp [orgUpsertByTenant, ho, ho2]
    · have h2 : orgFindOne t rest = some org := by
        simpa [orgFindOne, List.find?_cons_of_neg, ho] using h
      simp [orgUpsertByTenant, ho, ih _ _ h2]

theorem orgUpsertByTenant_none (t : String) :
    ∀ (l : List Organization) (n : Nat),
    orgFindOne t l = none →
    orgUpsertByTenant t l n =
      (⟨n, t, []⟩, l ++ [⟨n, t, []⟩], n + 1) := by
  intro l
  induction l with
  | nil => intro n _; simp [orgUpsertByTenant]
  | cons o rest ih =>
    intro n h
    by_cases ho : o.tenantId = t
    · exfalso
      have : orgFindOne t (o :: rest) = some o := by
        simp [orgFindOne, List.find?_cons_of_pos, ho]
      rw [this] at h
      exact Option.noConfusion h
    · have h2 : orgFindOne t rest = none := by
        simpa [orgFindOne, List.find?_cons_of_neg, ho] using h
      simp [orgUpsertByTenant, ho, ih _ h2]

theorem resolve_db_spec (mk : MarketplaceBehavior) (db : DB)
    (a : AuthResponse) (sub0 asub : Subscription) (calls : List ActivateCall)
    (hauth : mk.auth = .ok a) (htok : a.access_token ≠ "")
    (hfetch : mk.fetch = .ok (some ⟨some sub0⟩))
    (hpair : activateSubscription sub0 mk.activate = (.ok asub, calls)) :
    (resolveSubscription mk db).db =
      (getOrCreateSubscriptionOwners asub (orgPhase asub db)).1 := by
  simp [resolveSubscription, hauth, htok, hfetch, hpair, orgPhase]

theorem orgPhase_found (sub : Subscription) (db : DB) (org : Organization)
    (hf : orgFindOne sub.purchaser.tenantId db.organizations = some org) :
    orgPhase sub db =
      { db with organizations :=
          orgReplaceById org.uid (resolvedOrg org sub) db.organizations } := by
  unfold orgPhase getOrCreateOrganization
  rw [orgUpsertByTenant_found _ _ _ _ hf]
  cases hfs : org.subscriptions.find? (fun s => s.id = sub.id) with
  | some ds =>
    have hid : ds.id = sub.id := by simpa using List.find?_some hfs
    simp [getOrganizationSubscription, hfs,
      updateOrganizationSubscriptions, resolvedOrg, hid]
  | none =>
    have hfilter : org.subscriptions.filter (fun s => !decide (s.id = sub.id))
        = org.subscriptions := by
      apply List.filter_eq_self.mpr
      intro a ha
      have := List.find?_eq_none.mp hfs a ha
      simpa using this
    simp [getOrganizationSubscription, hfs,
      updateOrganizationSubscriptions, resolvedOrg]
    rw [hfilter]

theorem orgReplaceById_append_fresh (i : Nat) (o2 og : Organization)
    (hog : og.uid = i) :
    ∀ l : List Organization, (∀ o ∈ l, o.uid ≠ i) →
    orgReplaceById i o2 (l ++ [og]) = l ++ [o2] := by
  intro l
  induction l with
  | nil => intro _; simp [orgReplaceById, hog]
  | cons o rest ih =>
    intro h
    have ho : o.uid ≠ i := h o (List.mem_cons_self o rest)
    have ih2 := ih (fun x hx => h x (List.mem_cons_of_mem o hx))
    simp [orgReplaceById, ho, ih2]

theorem orgPhase_none (sub : Subscription) (db : DB)
    (hf : orgFindOne sub.purchaser.tenantId db.organizations = none)
    (hfresh : ∀ o ∈ db.organizations, o.uid < db.nextId) :
    orgPhase sub db =
      ⟨db.organizations ++ [⟨db.nextId, sub.purchaser.tenantId, [sub]⟩],
        db.users, db.nextId + 1⟩ := by
  unfold orgPhase getOrCreateOrganization
  rw [orgUpsertByTenant_none _ _ _ hf]
  simp [getOrganizationSubscription, updateOrganizationSubscriptions]
  exact orgReplaceById_append_fresh db.nextId _ _ rfl db.organizations
    (fun o ho => Nat.ne_of_lt (hfresh o ho))

theorem orgReplaceById_idem (i : Nat) (o2 : Organization)
    (h : o2.uid = i) :
    ∀ l : List Organization,
    orgReplaceById i o2 (orgReplaceById i o2 l) =
      orgReplaceById i o2 l := by
  intro l
  induction l with
  | nil => simp [orgReplaceById, h]
  | cons o rest ih =>
    by_cases ho : o.uid = i
    · simp [orgReplaceById, ho, h]
    · simp [orgReplaceById, ho, ih]

theorem resolvedOrg_idem (org : Organization) (sub : Subscription) :
    resolvedOrg (resolvedOrg org sub) sub = resolvedOrg org sub := by
  have h1 : ((org.subscriptions.filter fun s => s.id ≠ sub.id).filter
      fun s => s.id ≠ sub.id) =
      org.subscriptions.filter fun s => s.id ≠ sub.id :=
    List.filter_eq_self.mpr fun a ha => (List.mem_filter.mp ha).2
  have h2 : ([sub].filter fun s => s.id ≠ sub.id) = [] := by simp
  simp [resolvedOrg, List.filter_append, h1, h2]

theorem orgFindOne_append_of_none (t : String) (o : Organization)
    (ht : o.tenantId = t) :
    ∀ l : List Organization, orgFindOne t l = none →
    orgFindOne t (l ++ [o]) = some o := by
  intro l
  induction l with
  | nil => intro _; simp [orgFindOne, List.find?_cons_of_pos, ht]
  | cons x rest ih =>
    intro h
    by_cases hx : x.tenantId = t
    · exfalso
      have : orgFindOne t (x :: rest) = some x := by
        simp [orgFindOne, List.find?_cons_of_pos, hx]
      rw [this] at h
      exact Option.noConfusion h
    · have h2 : orgFindOne t rest = none := by
        simpa [orgFindOne, List.find?_cons_of_neg, hx] using h
      simpa [orgFindOne, List.find?_cons_of_neg, hx] using ih h2

theorem resolvedOrg_countP (org : Organization) (sub : Subscription) :
    (resolvedOrg org sub).subscriptions.countP
      (fun s => s.id = sub.id) = 1 := by
  have h0 : (org.subscriptions.filter fun s => s.id ≠ sub.id).countP
      (fun s => s.id = sub.id) = 0 := by
    rw [List.countP_eq_zero]
    intro a ha
    have := (List.mem_filter.mp ha).2
    simpa using this
  simp [resolvedOrg, List.countP_append, h0]

/-!
Claim theorems and witnesses.
-/

/-- C1: Idempotent resolve.  For a marketplace behaviour that resolves a
subscription and activates successfully, running `resolveSubscription`
twice against a well-formed store leaves the store exactly as after the
first run (so the owner user records are identical), and the purchaser
organization holds exactly one subscription with the resolved id. -/
theorem resolve_idempotent
    (mk : MarketplaceBehavior) (db : DB) (a : AuthResponse)
    (sub0 : Subscription)
    (hauth : mk.auth = .ok a) (htok : a.access_token ≠ "")
    (hfetch : mk.fetch = .ok (some ⟨some sub0⟩))
    (hsucc : sub0.saasSubscriptionStatus = SaasSubscriptionStatus.Subscribed ∨
      callActivateSubscriptionApi mk.activate = .ok ())
    (hndo : (db.organizations.map Organization.uid).Nodup)
    (hfresh : ∀ o ∈ db.organizations, o.uid < db.nextId) :
    (resolveSubscription mk ((resolveSubscription mk db).db)).db =
      (resolveSubscription mk db).db ∧
    ∃ org1, orgFindOne sub0.purchaser.tenantId
        ((resolveSubscription mk db).db).organizations = some org1 ∧
      org1.subscriptions.countP (fun s => s.id = sub0.id) = 1 := by
  obtain ⟨asub, hfst, hp, hid⟩ :
      ∃ asub, (activateSubscription sub0 mk.activate).1 = .ok asub ∧
        asub.purchaser = sub0.purchaser ∧ asub.id = sub0.id := by
    by_cases hs :
      sub0.saasSubscriptionStatus = SaasSubscriptionStatus.Subscribed
    · exact ⟨sub0, by simp [activateSubscription, hs], rfl, rfl⟩
    · rcases hsucc with h | h
      · exact absurd h hs
      · exact ⟨{ sub0 with
            saasSubscriptionStatus := SaasSubscriptionStatus.Subscribed },
          by simp [activateSubscription, hs, h], rfl, rfl⟩
  cases hpair : activateSubscription sub0 mk.activate with
  | mk fst calls =>
    rw [hpair] at hfst
    simp only at hfst
    subst hfst
    have hdbspec : ∀ d : DB, (resolveSubscription mk d).db =
        (getOrCreateSubscriptionOwners asub (orgPhase asub d)).1 :=
      fun d => resolve_db_spec mk d a sub0 asub calls hauth htok hfetch hpair
    have hFMP : ∀ q ∈ prepareFindOwnerQuery
        (asub.purchaser.objectId = asub.beneficiary.objectId) asub,
        firstMatchPatched (ownerFilter q) (ownerPatch asub q)
          ((resolveSubscription mk db).db).users := by
      rw [hdbspec db]
      exact owners_establish_FMP asub (orgPhase asub db)
    cases hforg : orgFindOne asub.purchaser.tenantId db.organizations with
    | some org =>
      have horgt : org.tenantId = asub.purchaser.tenantId := by
        simpa using List.find?_some (p := fun o : Organization =>
          o.tenantId = asub.purchaser.tenantId) hforg
      have hA : orgPhase asub db =
          { db with organizations :=
              (orgReplaceById org.uid (resolvedOrg org asub)
                db.organizations) } :=
        orgPhase_found asub db org hforg
      have hBorgs : ((resolveSubscription mk db).db).organizations =
          orgReplaceById org.uid (resolvedOrg org asub) db.organizations := by
        rw [hdbspec db, owners_organizations, hA]
      have hfindB : orgFindOne asub.purchaser.tenantId
          ((resolveSubscription mk db).db).organizations =
            some (resolvedOrg org asub) := by
        rw [hBorgs]
        exact orgFindOne_replaceById _ org (resolvedOrg org asub) horgt
          db.organizations hndo hforg
      have hphase2 : orgPhase asub ((resolveSubscription mk db).db) =
          (resolveSubscription mk db).db := by
        rw [orgPhase_found asub _ _ hfindB, resolvedOrg_idem, hBorgs]
        rw [show (resolvedOrg org asub).uid = org.uid from rfl]
        rw [orgReplaceById_idem org.uid (resolvedOrg org asub) rfl
          db.organizations]
        rw [← hBorgs]
      have hrun2 : (resolveSubscription mk
          ((resolveSubscription mk db).db)).db =
          (resolveSubscription mk db).db := by
        rw [hdbspec ((resolveSubscription mk db).db), hphase2,
          ownersPhase_noop asub _ hFMP]
      refine ⟨hrun2, resolvedOrg org asub, ?_, ?_⟩
      · rw [show sub0.purchaser.tenantId = asub.purchaser.tenantId by
          rw [hp]]
        exact hfindB
      · rw [← hid]
        exact resolvedOrg_countP org asub
    | none =>
      have hA : orgPhase asub db =
          ⟨db.organizations ++
              [⟨db.nextId, asub.purchaser.tenantId, [asub]⟩],
            db.users, db.nextId + 1⟩ :=
        orgPhase_none asub db hforg hfresh
      have hBorgs : ((resolveSubscription mk db).db).organizations =
          db.organizations ++
            [⟨db.nextId, asub.purchaser.tenantId, [asub]⟩] := by
        rw [hdbspec db, owners_organizations, hA]
      have hfindB : orgFindOne asub.purchaser.tenantId
          ((resolveSubscription mk db).db).organizations =
            some ⟨db.nextId, asub.purchaser.tenantId, [asub]⟩ := by
        rw [hBorgs]
        exact orgFindOne_append_of_none asub.purchaser.tenantId
          ⟨db.nextId, asub.purchaser.tenantId, [asub]⟩ rfl
          db.organizations hforg
      have hRO : resolvedOrg ⟨db.nextId, asub.purchaser.tenantId, [asub]⟩
          asub = ⟨db.nextId, asub.purchaser.tenantId, [asub]⟩ := by
        simp [resolvedOrg]
      have hphase2 : orgPhase asub ((resolveSubscription mk db).db) =
          (resolveSubscription mk db).db := by
        rw [orgPhase_found asub _ _ hfindB, hRO, hBorgs]
        rw [show (⟨db.nextId, asub.purchaser.tenantId, [asub]⟩ :
            Organization).uid = db.nextId from rfl]
        rw [orgReplaceById_append_fresh db.nextId _ _ rfl db.organizations
          (fun o ho => Nat.ne_of_lt (hfresh o ho))]
        rw [← hBorgs]
      have hrun2 : (resolveSubscription mk
          ((resolveSubscription mk db).db)).db =
          (resolveSubscription mk db).db := by
        rw [hdbspec ((resolveSubscription mk db).db), hphase2,
          ownersPhase_noop asub _ hFMP]
      refine ⟨hrun2, ⟨db.nextId, asub.purchaser.tenantId, [asub]⟩, ?_, ?_⟩
      · rw [show sub0.purchaser.tenantId = asub.purchaser.tenantId by
          rw [hp]]
        exact hfindB
      · simp [hid]

theorem resolve_idempotent_witness :
    (resolveSubscription mkBehaviorPending
        ((resolveSubscription mkBehaviorPending dbEmpty).db)).db =
      (resolveSubscription mkBehaviorPending dbEmpty).db ∧
    ∃ org1, orgFindOne samplePendingSub.purchaser.tenantId
        ((resolveSubscription mkBehaviorPending dbEmpty).db).organizations =
          some org1 ∧
      org1.subscriptions.countP (fun s => s.id = samplePendingSub.id) = 1 :=
  resolve_idempotent mkBehaviorPending dbEmpty ⟨"tok"⟩ samplePendingSub rfl
    (by decide) rfl (Or.inr rfl) (by decide) (by decide)

/-- C2: No double activation.  When the fetched subscription is already
`Subscribed`, the activation API is never invoked; otherwise it is invoked
exactly once with the `{planId, quantity}` payload of the fetched
subscription, and on success the returned subscription's status is
`Subscribed`. -/
theorem resolve_no_double_activation
    (mk : MarketplaceBehavior) (db : DB) (a : AuthResponse)
    (sub : Subscription)
    (hauth : mk.auth = .ok a) (htok : a.access_token ≠ "")
    (hfetch : mk.fetch = .ok (some ⟨some sub⟩)) :
    (sub.saasSubscriptionStatus = SaasSubscriptionStatus.Subscribed →
      (resolveSubscription mk db).activateCalls = []) ∧
    (sub.saasSubscriptionStatus ≠ SaasSubscriptionStatus.Subscribed →
      (resolveSubscription mk db).activateCalls =
        [⟨sub.id, sub.planId, sub.quantity⟩] ∧
      (callActivateSubscriptionApi mk.activate = .ok () →
        (resolveSubscription mk db).outcome =
          .ok (some { sub with
            saasSubscriptionStatus := SaasSubscriptionStatus.Subscribed }))) := by
  constructor
  · intro hs
    simp [resolveSubscription, hauth, htok, hfetch, activateSubscription, hs]
  · intro hs
    cases hact : callActivateSubscriptionApi mk.activate with
    | error e =>
      refine ⟨?_, ?_⟩
      · simp [resolveSubscription, hauth, htok, hfetch, activateSubscription,
          hs, hact]
      · intro h
        exact Except.noConfusion h
    | ok u =>
      refine ⟨?_, ?_⟩
      · simp [resolveSubscription, hauth, htok, hfetch, activateSubscription,
          hs, hact]
      · intro _
        simp [resolveSubscription, hauth, htok, hfetch, activateSubscription,
          hs, hact]

theorem resolve_no_double_activation_witness :
    (resolveSubscription mkBehaviorPending dbEmpty).activateCalls =
      [⟨"sub-1", "p1", 5⟩] ∧
    (resolveSubscription mkBehaviorPending dbEmpty).outcome =
      .ok (some { samplePendingSub with
        saasSubscriptionStatus := SaasSubscriptionStatus.Subscribed }) := by
  have h := resolve_no_double_activation mkBehaviorPending dbEmpty
    ⟨"tok"⟩ samplePendingSub rfl (by decide) rfl
  exact ⟨(h.2 (by decide)).1, (h.2 (by decide)).2 rfl⟩

/-- C3: Activation failure aborts resolve atomically.  When the activation
call fails (transport error or truthy `Message`), `resolveSubscription`
throws that error and performs no organization-store write and no
user-store write: the store is exactly the initial one. -/
theorem resolve_activation_failure_atomic
    (mk : MarketplaceBehavior) (db : DB) (a : AuthResponse)
    (sub : Subscription) (e : Err)
    (hauth : mk.auth = .ok a) (htok : a.access_token ≠ "")
    (hfetch : mk.fetch = .ok (some ⟨some sub⟩))
    (hnot : sub.saasSubscriptionStatus ≠ SaasSubscriptionStatus.Subscribed)
    (hfail : callActivateSubscriptionApi mk.activate = .error e) :
    (resolveSubscription mk db).outcome = .error e ∧
    (resolveSubscription mk db).db = db ∧
    (resolveSubscription mk db).userWrites = [] ∧
    (resolveSubscription mk db).orgWrites = 0 := by
  refine ⟨?_, ?_, ?_, ?_⟩ <;>
    simp [resolveSubscription, hauth, htok, hfetch, activateSubscription,
      hnot, hfail]

theorem resolve_activation_failure_atomic_witness :
    (resolveSubscription mkBehaviorActFail dbEmpty).outcome =
      .error (.activationMessage "bad plan") ∧
    (resolveSubscription mkBehaviorActFail dbEmpty).db = dbEmpty ∧
    (resolveSubscription mkBehaviorActFail dbEmpty).userWrites = [] ∧
    (resolveSubscription mkBehaviorActFail dbEmpty).orgWrites = 0 :=
  resolve_activation_failure_atomic mkBehaviorActFail dbEmpty ⟨"tok"⟩
    samplePendingSub (.activationMessage "bad plan") rfl (by decide) rfl
    (by decide) rfl

/-- C4: Unsubscribe clears licenses.  After a successful unsubscribe,
every user matching the purchaser tenant and subscription id is reset to
`role = Member`, `subscriptionId = ""`, `license = "Free"`, with all other
fields (store key, userId, tenantId, upn) preserved, and no other user is
touched. -/
theorem unsubscribe_clears_licenses
    (S : Subscription) (db : DB)
    (hnd : (db.users.map User.uid).Nodup)
    (hsucc : (removeSubscription S db).1 = .ok ()) :
    (removeSubscription S db).2.users =
      db.users.map (fun u =>
        if u.tenantId = S.purchaser.tenantId ∧ u.subscriptionId = S.id then
          { u with
              role := Role.Member
              license := "Free"
              subscriptionId := "" }
        else u) := by
  have h1 : removeSubscription S db =
      updateSubscriptionStatus S.purchaser.tenantId S
        (removeAllSubscriptionUsers S.purchaser.tenantId S.id db) := rfl
  rw [h1, updateSubscriptionStatus_users,
    removeAllSubscriptionUsers_eq _ _ _ hnd]
  show downgradedUsers S.purchaser.tenantId S.id db.users = _
  unfold downgradedUsers
  apply List.map_congr_left
  intro u _
  by_cases hb : u.tenantId = S.purchaser.tenantId ∧ u.subscriptionId = S.id
  · have hm : (boundUserFilter S.purchaser.tenantId S.id).matches u = true := by
      simp [boundUserFilter, UserFilter.matches, hb.1, hb.2]
    simp [hm, hb, downgradeUser_eq]
  · have hm : (boundUserFilter S.purchaser.tenantId S.id).matches u = false := by
      simp [boundUserFilter, UserFilter.matches]
      intro h1 h2
      exact hb ⟨h1.symm, h2.symm⟩
    simp [hm, hb]

theorem unsubscribe_clears_licenses_witness :
    (removeSubscription sampleSubscribedSub dbUnsub).2.users =
      dbUnsub.users.map (fun u =>
        if u.tenantId = sampleSubscribedSub.purchaser.tenantId ∧
            u.subscriptionId = sampleSubscribedSub.id then
          { u with
              role := Role.Member
              license := "Free"
              subscriptionId := "" }
        else u) :=
  unsubscribe_clears_licenses sampleSubscribedSub dbUnsub (by decide) rfl

/-- C5: Subscription retained and flagged on unsubscribe.  If the tenant's
organization holds an entry with the unsubscribed id, the unsubscribe
succeeds and the persisted list afterwards holds exactly one entry with
that id, flagged `Unsubscribed`, not deleted. -/
theorem unsubscribe_retains_flagged
    (S : Subscription) (db : DB) (org : Organization)
    (hndo : (db.organizations.map Organization.uid).Nodup)
    (hfind : orgFindOne S.purchaser.tenantId db.organizations = some org)
    (hmem : ∃ s ∈ org.subscriptions, s.id = S.id) :
    (removeSubscription S db).1 = .ok () ∧
    ∃ org2, orgFindOne S.purchaser.tenantId
        (removeSubscription S db).2.organizations = some org2 ∧
      org2.subscriptions.countP (fun s => s.id = S.id) = 1 ∧
      ∀ s ∈ org2.subscriptions, s.id = S.id →
        s.saasSubscriptionStatus = SaasSubscriptionStatus.Unsubscribed := by
  have horgt : org.tenantId = S.purchaser.tenantId := by
    simpa using List.find?_some (p := fun o : Organization =>
      o.tenantId = S.purchaser.tenantId) hfind
  obtain ⟨dbSub, hfs⟩ :
      ∃ dbSub, org.subscriptions.find? (fun s => s.id = S.id) = some dbSub := by
    have hsome : (org.subscriptions.find? (fun s => s.id = S.id)).isSome := by
      rw [List.find?_isSome]
      obtain ⟨s, hsmem, hsid⟩ := hmem
      exact ⟨s, hsmem, by simp [hsid]⟩
    exact Option.isSome_iff_exists.mp hsome
  have hid : dbSub.id = S.id := by simpa using List.find?_some hfs
  have h1 : removeSubscription S db =
      updateSubscriptionStatus S.purchaser.tenantId S
        (removeAllSubscriptionUsers S.purchaser.tenantId S.id db) := rfl
  have horgs1 : (removeAllSubscriptionUsers S.purchaser.tenantId S.id
      db).organizations = db.organizations :=
    removeAll_organizations _ _ _
  have hfind1 : orgFindOne S.purchaser.tenantId
      (removeAllSubscriptionUsers S.purchaser.tenantId S.id
        db).organizations = some org := by
    rw [horgs1]; exact hfind
  rw [h1, updateSubscriptionStatus_found _ _ _ org dbSub hfind1 hfs]
  refine ⟨rfl, ?_⟩
  refine ⟨{ org with
      subscriptions :=
        (org.subscriptions.filter fun s => s.id ≠ dbSub.id) ++
          [{ dbSub with
              saasSubscriptionStatus := SaasSubscriptionStatus.Unsubscribed }] },
    ?_, ?_, ?_⟩
  · rw [updateOrganizationSubscriptions_organizations, horgs1]
    exact orgFindOne_replaceById _ org
      { org with
        subscriptions :=
          (org.subscriptions.filter fun s => s.id ≠ dbSub.id) ++
            [{ dbSub with
                saasSubscriptionStatus :=
                  SaasSubscriptionStatus.Unsubscribed }] }
      horgt db.organizations hndo hfind
  · rw [show ({ org with
        subscriptions :=
          (org.subscriptions.filter fun s => s.id ≠ dbSub.id) ++
            [{ dbSub with
                saasSubscriptionStatus :=
                  SaasSubscriptionStatus.Unsubscribed }] } :
        Organization).subscriptions =
      (org.subscriptions.filter fun s => s.id ≠ dbSub.id) ++
        [{ dbSub with
            saasSubscriptionStatus := SaasSubscriptionStatus.Unsubscribed }]
      from rfl]
    rw [List.countP_append]
    have hz : (org.subscriptions.filter fun s => s.id ≠ dbSub.id).countP
        (fun s => s.id = S.id) = 0 := by
      rw [List.countP_eq_zero]
      intro a ha
      have h2 := (List.mem_filter.mp ha).2
      rw [hid] at h2
      simp only [decide_eq_true_eq]
      simpa using h2
    rw [hz]
    simp [hid]
  · intro s hs hsid
    have hs2 := hs
    simp only at hs2
    rcases List.mem_append.mp hs2 with h | h
    · have h2 := (List.mem_filter.mp h).2
      rw [hid] at h2
      exact absurd hsid (by simpa using h2)
    · have hsd : s = { dbSub with
          saasSubscriptionStatus := SaasSubscriptionStatus.Unsubscribed } := by
        simpa using h
      rw [hsd]

theorem unsubscribe_retains_flagged_witness :
    (removeSubscription sampleSubscribedSub dbUnsub).1 = .ok () ∧
    ∃ org2, orgFindOne sampleSubscribedSub.purchaser.tenantId
        (removeSubscription sampleSubscribedSub dbUnsub).2.organizations =
          some org2 ∧
      org2.subscriptions.countP
        (fun s => s.id = sampleSubscribedSub.id) = 1 ∧
      ∀ s ∈ org2.subscriptions, s.id = sampleSubscribedSub.id →
        s.saasSubscriptionStatus = SaasSubscriptionStatus.Unsubscribed :=
  unsubscribe_retains_flagged sampleSubscribedSub dbUnsub
    ⟨2, "t1", [sampleSubscribedSub]⟩ (by decide) rfl
    ⟨sampleSubscribedSub, by simp, rfl⟩

/-- C6: Owner set correctness.  On a successful resolve, when the
purchaser and beneficiary object ids coincide exactly one user upsert is
issued, keyed by the purchaser's object id, tenant id and upn; when they
differ exactly two are issued, the second keyed by the beneficiary's. -/
theorem resolve_owner_upsert_counts
    (mk : MarketplaceBehavior) (db : DB) (a : AuthResponse)
    (sub0 : Subscription)
    (hauth : mk.auth = .ok a) (htok : a.access_token ≠ "")
    (hfetch : mk.fetch = .ok (some ⟨some sub0⟩))
    (hsucc : sub0.saasSubscriptionStatus = SaasSubscriptionStatus.Subscribed ∨
      callActivateSubscriptionApi mk.activate = .ok ()) :
    (sub0.purchaser.objectId = sub0.beneficiary.objectId →
      (resolveSubscription mk db).userWrites.map UserWrite.filter =
        [⟨none, some sub0.purchaser.objectId, some sub0.purchaser.tenantId,
          some sub0.purchaser.emailId, none⟩]) ∧
    (sub0.purchaser.objectId ≠ sub0.beneficiary.objectId →
      (resolveSubscription mk db).userWrites.map UserWrite.filter =
        [⟨none, some sub0.purchaser.objectId, some sub0.purchaser.tenantId,
          some sub0.purchaser.emailId, none⟩,
          ⟨none, some sub0.beneficiary.objectId,
            some sub0.beneficiary.tenantId,
            some sub0.beneficiary.emailId, none⟩]) := by
  have hsub : ∃ asub, (activateSubscription sub0 mk.activate).1 = .ok asub ∧
      asub.purchaser = sub0.purchaser ∧ asub.beneficiary = sub0.beneficiary := by
    by_cases hs :
      sub0.saasSubscriptionStatus = SaasSubscriptionStatus.Subscribed
    · exact ⟨sub0, by simp [activateSubscription, hs], rfl, rfl⟩
    · rcases hsucc with h | h
      · exact absurd h hs
      · exact ⟨{ sub0 with
            saasSubscriptionStatus := SaasSubscriptionStatus.Subscribed },
          by simp [activateSubscription, hs, h], rfl, rfl⟩
  obtain ⟨asub, hfst, hp, hb⟩ := hsub
  cases hpair : activateSubscription sub0 mk.activate with
  | mk fst calls =>
    rw [hpair] at hfst
    simp only at hfst
    subst hfst
    constructor
    · intro hpb
      have hpb2 : asub.purchaser.objectId = asub.beneficiary.objectId := by
        rw [hp, hb]; exact hpb
      simp [resolveSubscription, hauth, htok, hfetch, hpair,
        getOrCreateSubscriptionOwners, findOwnerOrCreateUser_writes,
        prepareFindOwnerQuery, ownerFilter, hpb, hpb2, hp, hb]
    · intro hpb
      have hpb2 : ¬ asub.purchaser.objectId = asub.beneficiary.objectId := by
        rw [hp, hb]; exact hpb
      simp [resolveSubscription, hauth, htok, hfetch, hpair,
        getOrCreateSubscriptionOwners, findOwnerOrCreateUser_writes,
        prepareFindOwnerQuery, ownerFilter, hpb, hpb2, hp, hb]

theorem resolve_owner_upsert_counts_witness :
    (resolveSubscription mkBehaviorPendingDiff dbEmpty).userWrites.map
        UserWrite.filter =
      [⟨none, some samplePendingSubDiff.purchaser.objectId,
          some samplePendingSubDiff.purchaser.tenantId,
          some samplePendingSubDiff.purchaser.emailId, none⟩,
        ⟨none, some samplePendingSubDiff.beneficiary.objectId,
          some samplePendingSubDiff.beneficiary.tenantId,
          some samplePendingSubDiff.beneficiary.emailId, none⟩] := by
  have h := resolve_owner_upsert_counts mkBehaviorPendingDiff dbEmpty
    ⟨"tok"⟩ samplePendingSubDiff rfl (by decide) rfl (Or.inr rfl)
  exact h.2 (by decide)

/-- C7 counterexample: when the authentication response carries a falsy
(empty) access token, `resolveSubscription` resolves with `undefined`
(absent subscription) without throwing, contradicting the claim that it
never returns an absent value as a success. -/
theorem resolve_absent_token_counterexample :
    (resolveSubscription mkFalsyToken dbEmpty).outcome = .ok none ∧
    ∀ e : Err, (resolveSubscription mkFalsyToken dbEmpty).outcome ≠
      .error e := by
  refine ⟨rfl, fun e h => ?_⟩
  rw [show (resolveSubscription mkFalsyToken dbEmpty).outcome = .ok none
    from rfl] at h
  exact Except.noConfusion h

/-- C7 amended: whenever the authentication step yields a truthy access
token, `resolveSubscription` either throws or returns a present resolved
subscription; an absent success value can only arise from a falsy access
token. -/
theorem resolve_no_partial_success_amended
    (mk : MarketplaceBehavior) (db : DB) (a : AuthResponse)
    (hauth : mk.auth = .ok a) (htok : a.access_token ≠ "") :
    (∃ e, (resolveSubscription mk db).outcome = .error e) ∨
    (∃ s, (resolveSubscription mk db).outcome = .ok (some s)) := by
  cases hf : mk.fetch with
  | error e =>
    exact .inl ⟨e, by simp [resolveSubscription, hauth, htok, hf]⟩
  | ok o =>
    cases o with
    | none =>
      exact .inl ⟨.typeError, by simp [resolveSubscription, hauth, htok, hf]⟩
    | some addSub =>
      cases hsub : addSub.subscription with
      | none =>
        exact .inl ⟨.typeError,
          by simp [resolveSubscription, hauth, htok, hf, hsub]⟩
      | some sub0 =>
        cases hact : activateSubscription sub0 mk.activate with
        | mk fst calls =>
          cases fst with
          | error e =>
            exact .inl ⟨e,
              by simp [resolveSubscription, hauth, htok, hf, hsub, hact]⟩
          | ok sub =>
            exact .inr ⟨sub,
              by simp [resolveSubscription, hauth, htok, hf, hsub, hact]⟩

theorem resolve_no_partial_success_amended_witness :
    (∃ e, (resolveSubscription mkBehaviorActFail dbEmpty).outcome =
      .error e) ∨
    (∃ s, (resolveSubscription mkBehaviorActFail dbEmpty).outcome =
      .ok (some s)) :=
  resolve_no_partial_success_amended mkBehaviorActFail dbEmpty ⟨"tok"⟩ rfl
    (by decide)

/-- C8: the code performs no input validation.  Unsubscribing a
subscription whose `id` and `purchaser.tenantId` are both empty completes
successfully and writes to both stores instead of failing fast with a
`MalformedRequestError`; no such validation exists in the code. -/
theorem remove_no_input_validation :
    (removeSubscription emptyIdSub dbEmptyIds).1 = .ok () ∧
    (removeSubscription emptyIdSub dbEmptyIds).2.users ≠ dbEmptyIds.users ∧
    (removeSubscription emptyIdSub dbEmptyIds).2.organizations ≠
      dbEmptyIds.organizations := by
  refine ⟨rfl, by decide, by decide⟩

/-- C9: Unsubscribe ordering.  `removeSubscription` is exactly the user
downgrade pass followed by the organization status flip: the intermediate
state has all matched users downgraded while the organization store is
untouched, and the organization step never writes to the user store. -/
theorem unsubscribe_user_downgrade_before_org_write
    (S : Subscription) (db : DB)
    (hnd : (db.users.map User.uid).Nodup) :
    removeSubscription S db =
      updateSubscriptionStatus S.purchaser.tenantId S
        (removeAllSubscriptionUsers S.purchaser.tenantId S.id db) ∧
    (removeAllSubscriptionUsers S.purchaser.tenantId S.id db).organizations
      = db.organizations ∧
    (removeAllSubscriptionUsers S.purchaser.tenantId S.id db).users =
      downgradedUsers S.purchaser.tenantId S.id db.users ∧
    ∀ d : DB,
      (updateSubscriptionStatus S.purchaser.tenantId S d).2.users =
        d.users := by
  refine ⟨rfl, removeAll_organizations _ _ _, ?_,
    fun d => updateSubscriptionStatus_users _ _ d⟩
  rw [removeAllSubscriptionUsers_eq _ _ _ hnd]

theorem unsubscribe_user_downgrade_before_org_write_witness :
    removeSubscription sampleSubscribedSub dbUnsub =
      updateSubscriptionStatus sampleSubscribedSub.purchaser.tenantId
        sampleSubscribedSub
        (removeAllSubscriptionUsers sampleSubscribedSub.purchaser.tenantId
          sampleSubscribedSub.id dbUnsub) ∧
    (removeAllSubscriptionUsers sampleSubscribedSub.purchaser.tenantId
        sampleSubscribedSub.id dbUnsub).organizations =
      dbUnsub.organizations ∧
    (removeAllSubscriptionUsers sampleSubscribedSub.purchaser.tenantId
        sampleSubscribedSub.id dbUnsub).users =
      downgradedUsers sampleSubscribedSub.purchaser.tenantId
        sampleSubscribedSub.id dbUnsub.users ∧
    (updateSubscriptionStatus sampleSubscribedSub.purchaser.tenantId
        sampleSubscribedSub dbUnsub).2.users = dbUnsub.users := by
  have h := unsubscribe_user_downgrade_before_org_write sampleSubscribedSub
    dbUnsub (by decide)
  exact ⟨h.1, h.2.1, h.2.2.1, h.2.2.2 dbUnsub⟩

/-- C10: a missing organization or missing subscription entry makes the
unsubscribe throw the `undefined`-dereference error of
`updateSubscriptionStatus`, after the user downgrades have already been
written, so the downgrades persist while the organization store is
unchanged. -/
theorem unsubscribe_missing_subscription_throws_after_downgrade
    (S : Subscription) (db : DB)
    (hnd : (db.users.map User.uid).Nodup)
    (hmiss : getOrganizationSubscription
      (orgFindOne S.purchaser.tenantId db.organizations) S = none) :
    (removeSubscription S db).1 = .error .typeError ∧
    (removeSubscription S db).2.users =
      downgradedUsers S.purchaser.tenantId S.id db.users ∧
    (removeSubscription S db).2.organizations = db.organizations := by
  have h1 : removeSubscription S db =
      updateSubscriptionStatus S.purchaser.tenantId S
        (removeAllSubscriptionUsers S.purchaser.tenantId S.id db) := rfl
  rw [h1, removeAllSubscriptionUsers_eq _ _ _ hnd]
  unfold updateSubscriptionStatus
  simp [hmiss]

theorem unsubscribe_missing_subscription_witness :
    (removeSubscription sampleSubscribedSub dbNoOrg).1 =
      .error .typeError ∧
    (removeSubscription sampleSubscribedSub dbNoOrg).2.users =
      downgradedUsers sampleSubscribedSub.purchaser.tenantId
        sampleSubscribedSub.id dbNoOrg.users ∧
    (removeSubscription sampleSubscribedSub dbNoOrg).2.organizations =
      dbNoOrg.organizations :=
  unsubscribe_missing_subscription_throws_after_downgrade
    sampleSubscribedSub dbNoOrg (by decide) rfl

end SubSvc
